import Mathlib

/-!
Shallow embedding of the task filtering, sorting and statistics engine of the
to-do application (sources: src/services/taskStorage.ts, src/services/projectStorage.ts,
src/hooks/useTasks.ts, src/hooks/useProjects.ts).

Modelling conventions:
* JavaScript `Date` values are epoch-millisecond timestamps, modelled as `Nat`.
  `new Date(y, m, d)` (midnight of the calendar day of a timestamp) is modelled by
  `startOfDay`, taking the day length to be a constant 86400000 ms (the model has no
  time-zone offset or DST; the offset is a constant shift that does not affect any
  comparison at issue).
* Optional fields are `Option`; JavaScript string falsiness (`""` and `undefined`
  are both falsy) is modelled explicitly where the source relies on it.
* `localStorage` round-trips whole collections, so every storage operation is a pure
  function from the current collection(s) to the result and the new collection(s).
  `Date.now()` / generated ids are passed in as explicit `now` / `newId` arguments.
* `ProjectStorageService.getProjects` bootstraps a default project when the store is
  empty; theorems that need a default project take its presence as a hypothesis
  instead of modelling the bootstrap write.
-/

namespace Todo

inductive TaskStatus where
  | todo
  | in_progress
  | completed
deriving DecidableEq

inductive TaskPriority where
  | low
  | medium
  | high
deriving DecidableEq

inductive ProjectColor where
  | blue
  | green
  | red
  | yellow
  | purple
  | pink
  | orange
  | gray
deriving DecidableEq

/-- Task record (src/types/task.ts, interface Task). Timestamps are epoch ms. -/
structure Task where
  id : String
  title : String
  description : Option String
  completed : Bool
  status : TaskStatus
  priority : TaskPriority
  projectId : Option String
  dueDate : Option Nat
  createdAt : Nat
  updatedAt : Nat
  tags : List String
deriving DecidableEq

/-- Project record (src/types, interface Project). `isDefault?: boolean` with
`undefined` falsy is modelled as a plain `Bool`. -/
structure Project where
  id : String
  name : String
  description : Option String
  color : ProjectColor
  isDefault : Bool
  createdAt : Nat
  updatedAt : Nat
deriving DecidableEq

/-- CreateTaskInput (src/types/task.ts). -/
structure CreateTaskInput where
  title : String
  description : Option String := none
  priority : Option TaskPriority := none
  projectId : Option String := none
  dueDate : Option Nat := none
  tags : Option (List String) := none
deriving DecidableEq

/-- Partial<Omit<Task, "id" | "createdAt">> as used by updateTask/toggleTask.
The outer `Option` is key presence; for fields that are themselves optional on
`Task` the inner `Option` is the stored value (so `some none` is a present
`undefined`). -/
structure TaskUpdates where
  title : Option String := none
  description : Option (Option String) := none
  completed : Option Bool := none
  status : Option TaskStatus := none
  priority : Option TaskPriority := none
  projectId : Option (Option String) := none
  dueDate : Option (Option Nat) := none
  tags : Option (List String) := none
deriving DecidableEq

/-- TaskStats (src/types/task.ts). -/
structure TaskStats where
  total : Nat
  completed : Nat
  pending : Nat
  overdue : Nat
  highPriority : Nat
deriving DecidableEq

/-- JavaScript truthiness of an optional string: `undefined` and `""` are falsy. -/
def strTruthy : Option String → Bool
  | none => false
  | some s => decide (s ≠ "")

/-- Truthiness of a `Partial` field holding an optional string. -/
def optStrTruthy : Option (Option String) → Bool
  | some (some s) => decide (s ≠ "")
  | _ => false

/-- The string inside a doubly-optional field (only read under `optStrTruthy`). -/
def optStrGet : Option (Option String) → String
  | some (some s) => s
  | _ => ""

namespace ProjectStorageService

/-- src/services/projectStorage.ts, getDefaultProject: first project with a truthy
`isDefault`. -/
def getDefaultProject (ps : List Project) : Option Project :=
  ps.find? (fun p => p.isDefault)

/-- src/services/projectStorage.ts, projectExists. -/
def projectExists (ps : List Project) (projectId : String) : Bool :=
  ps.any (fun p => decide (p.id = projectId))

/-- src/services/projectStorage.ts, deleteProject: refuses when the project is
missing or default, otherwise removes it. Returns (saved?, new collection). -/
def deleteProject (projectId : String) (ps : List Project) : Bool × List Project :=
  match ps.find? (fun p => decide (p.id = projectId)) with
  | none => (false, ps)
  | some p =>
    if p.isDefault then (false, ps)
    else (true, ps.filter (fun q => decide (q.id ≠ projectId)))

end ProjectStorageService

namespace TaskStorageService

/-- src/services/taskStorage.ts, addTask (first definition, lines 68-102):
resolves a falsy or non-existing projectId to the default project's id, then
appends the new record. Returns (new record, new collection). -/
def addTask (now : Nat) (newId : String) (ps : List Project)
    (input : CreateTaskInput) (tasks : List Task) : Task × List Task :=
  let pid0 := input.projectId
  let pid1 := if strTruthy pid0 then pid0
              else (ProjectStorageService.getDefaultProject ps).map (fun p => p.id)
  let pid2 := match pid1 with
    | some q =>
      if decide (q ≠ "") && !(ProjectStorageService.projectExists ps q) then
        (ProjectStorageService.getDefaultProject ps).map (fun p => p.id)
      else some q
    | none => none
  let newTask : Task :=
    { id := newId
      title := input.title
      description := input.description
      completed := false
      status := TaskStatus.todo
      priority := input.priority.getD TaskPriority.medium
      projectId := pid2
      dueDate := input.dueDate
      createdAt := now
      updatedAt := now
      tags := input.tags.getD [] }
  (newTask, tasks ++ [newTask])

/-- src/services/taskStorage.ts, addTask (second, duplicated definition, lines
399-419): identical except that it performs no projectId validation. -/
def addTaskDup (now : Nat) (newId : String)
    (input : CreateTaskInput) (tasks : List Task) : Task × List Task :=
  let newTask : Task :=
    { id := newId
      title := input.title
      description := input.description
      completed := false
      status := TaskStatus.todo
      priority := input.priority.getD TaskPriority.medium
      projectId := input.projectId
      dueDate := input.dueDate
      createdAt := now
      updatedAt := now
      tags := input.tags.getD [] }
  (newTask, tasks ++ [newTask])

/-- The projectId re-validation step of updateTask (lines 116-123): a truthy
`updates.projectId` that does not exist is replaced by the default project's id
(which may itself be `undefined`). -/
def validateUpdates (ps : List Project) (u : TaskUpdates) : TaskUpdates :=
  if optStrTruthy u.projectId
      && !(ProjectStorageService.projectExists ps (optStrGet u.projectId)) then
    { u with projectId := some ((ProjectStorageService.getDefaultProject ps).map (fun p => p.id)) }
  else u

/-- `{ ...task, ...updates, updatedAt: now }`. -/
def mergeUpdates (task : Task) (u : TaskUpdates) (now : Nat) : Task :=
  { id := task.id
    title := u.title.getD task.title
    description := u.description.getD task.description
    completed := u.completed.getD task.completed
    status := u.status.getD task.status
    priority := u.priority.getD task.priority
    projectId := u.projectId.getD task.projectId
    dueDate := u.dueDate.getD task.dueDate
    createdAt := task.createdAt
    updatedAt := now
    tags := u.tags.getD task.tags }

/-- src/services/taskStorage.ts, updateTask (lines 107-134): finds the first task
with the given id (findIndex), validates `updates.projectId`, merges, writes back
at the same index. The recursion updates the first match, which is the same
behaviour as findIndex + assignment. -/
def updateTask (now : Nat) (ps : List Project) (taskId : String)
    (updates : TaskUpdates) : List Task → Option Task × List Task
  | [] => (none, [])
  | task :: rest =>
    if decide (task.id = taskId) then
      let updatedTask := mergeUpdates task (validateUpdates ps updates) now
      (some updatedTask, updatedTask :: rest)
    else
      let r := updateTask now ps taskId updates rest
      (r.1, task :: r.2)

/-- The update object literal passed by toggleTask:
`{ completed, status: completed ? "completed" : "todo" }`. -/
def toggleUpdates (completed : Bool) : TaskUpdates :=
  { completed := some completed
    status := some (if completed then TaskStatus.completed else TaskStatus.todo) }

/-- src/services/taskStorage.ts, toggleTask (lines 151-162): flips `completed`
and sets `status` accordingly, via updateTask. -/
def toggleTask (now : Nat) (ps : List Project) (taskId : String)
    (tasks : List Task) : Option Task × List Task :=
  match tasks.find? (fun t => decide (t.id = taskId)) with
  | none => (none, tasks)
  | some task =>
    let completed := !task.completed
    updateTask now ps taskId (toggleUpdates completed) tasks

/-- src/services/taskStorage.ts, deleteTask (lines 139-146). -/
def deleteTask (taskId : String) (tasks : List Task) : Bool × List Task :=
  let filteredTasks := tasks.filter (fun t => decide (t.id ≠ taskId))
  if filteredTasks.length = tasks.length then (false, tasks)
  else (true, filteredTasks)

/-- src/services/taskStorage.ts, clearCompletedTasks (lines 167-174). -/
def clearCompletedTasks (tasks : List Task) : Nat × List Task :=
  let activeTasks := tasks.filter (fun t => !t.completed)
  (tasks.length - activeTasks.length, activeTasks)

/-- src/services/taskStorage.ts, handleProjectDeletion (lines 204-221): moves all
tasks of the deleted project to the default project, refreshing their updatedAt. -/
def handleProjectDeletion (now : Nat) (ps : List Project) (deletedProjectId : String)
    (tasks : List Task) : Bool × List Task :=
  match ProjectStorageService.getDefaultProject ps with
  | none => (false, tasks)
  | some dp =>
    let tasksToMove := tasks.filter (fun t => decide (t.projectId = some deletedProjectId))
    if tasksToMove.isEmpty then (true, tasks)
    else
      (true, tasks.map (fun t =>
        if decide (t.projectId = some deletedProjectId) then
          { t with projectId := some dp.id, updatedAt := now }
        else t))

/-- src/services/taskStorage.ts, getTaskStats (lines 226-241): overdue compares
the due date against `now` by exact timestamp. -/
def getTaskStats (now : Nat) (tasks : List Task) : TaskStats :=
  { total := tasks.length
    completed := (tasks.filter (fun t => t.completed)).length
    pending := (tasks.filter (fun t => !t.completed)).length
    overdue := (tasks.filter (fun t =>
      match t.dueDate with
      | some d => decide (d < now) && !t.completed
      | none => false)).length
    highPriority := (tasks.filter (fun t =>
      decide (t.priority = TaskPriority.high) && !t.completed)).length }

end TaskStorageService

namespace UseProjects

/-- src/hooks/useProjects.ts, deleteProject (lines 87-116): first reassigns the
tasks via handleProjectDeletion, aborts on failure, then asks the project storage
to delete. Returns (success, projects, tasks). -/
def deleteProject (now : Nat) (ps : List Project) (projectId : String)
    (tasks : List Task) : Bool × List Project × List Task :=
  let hr := TaskStorageService.handleProjectDeletion now ps projectId tasks
  if !hr.1 then (false, ps, tasks)
  else
    let pr := ProjectStorageService.deleteProject projectId ps
    (pr.1, pr.2, hr.2)

end UseProjects

/-! The filter/sort engine and hook-level statistics (src/hooks/useTasks.ts). -/

/-- SortBy (src/types/filter.ts). -/
inductive SortBy where
  | createdDate
  | updatedDate
  | dueDate
  | title
  | priority
  | status
deriving DecidableEq

/-- SortDirection (src/types/filter.ts). -/
inductive SortDirection where
  | asc
  | desc
deriving DecidableEq

/-- DueDateFilter (src/types/filter.ts). -/
inductive DueDateFilter where
  | all
  | today
  | tomorrow
  | thisWeek
  | nextWeek
  | overdue
  | noDueDate
deriving DecidableEq

/-- TaskSort (src/types/filter.ts). -/
structure TaskSort where
  sortBy : SortBy
  direction : SortDirection
deriving DecidableEq

/-- Milliseconds in a calendar day. -/
def dayMs : Nat := 86400000

/-- `new Date(t.getFullYear(), t.getMonth(), t.getDate())`: midnight of the
calendar day containing `t`. -/
def startOfDay (t : Nat) : Nat := t / dayMs * dayMs

/-- `Date.prototype.getDay` on a midnight timestamp, Sunday = 0
(the epoch day, 1970-01-01, was a Thursday = 4). -/
def weekday (d : Nat) : Nat := (d / dayMs + 4) % 7

namespace UseTasks

/-- The due-date predicate of filteredAndSortedTasks
(src/hooks/useTasks.ts lines 179-218), for a filter value that passed the
`filter.dueDate && filter.dueDate !== ALL` guard. The `.all` branch is the
switch's `default: return true`. -/
def matchesDueDate (fd : DueDateFilter) (now : Nat) (task : Task) : Bool :=
  let today := startOfDay now
  let tomorrow := today + dayMs
  let thisWeekEnd := today + (7 - weekday today) * dayMs
  let nextWeekEnd := thisWeekEnd + 7 * dayMs
  match task.dueDate with
  | none => decide (fd = DueDateFilter.noDueDate)
  | some due =>
    let dueDateOnly := startOfDay due
    match fd with
    | DueDateFilter.today => decide (dueDateOnly = today)
    | DueDateFilter.tomorrow => decide (dueDateOnly = tomorrow)
    | DueDateFilter.thisWeek =>
        decide (today ≤ dueDateOnly) && decide (dueDateOnly ≤ thisWeekEnd)
    | DueDateFilter.nextWeek =>
        decide (thisWeekEnd < dueDateOnly) && decide (dueDateOnly ≤ nextWeekEnd)
    | DueDateFilter.overdue => decide (dueDateOnly < today) && !task.completed
    | DueDateFilter.noDueDate => false
    | DueDateFilter.all => true

/-- The due-date stage of the filter pipeline, including the
`filter.dueDate && filter.dueDate !== DueDateFilter.ALL` guard. -/
def applyDueDateFilter (fd : Option DueDateFilter) (now : Nat) (tasks : List Task) :
    List Task :=
  match fd with
  | none => tasks
  | some f =>
    if decide (f = DueDateFilter.all) then tasks
    else tasks.filter (matchesDueDate f now)

/-- `priorityOrder = { high: 3, medium: 2, low: 1 }`. -/
def priorityOrder : TaskPriority → Nat
  | TaskPriority.high => 3
  | TaskPriority.medium => 2
  | TaskPriority.low => 1

/-- `statusOrder = { todo: 1, in_progress: 2, completed: 3 }`. -/
def statusOrder : TaskStatus → Nat
  | TaskStatus.todo => 1
  | TaskStatus.in_progress => 2
  | TaskStatus.completed => 3

/-- `a.dueDate?.getTime() || Infinity`: an absent due date gives `Infinity`, and
so does a due date whose timestamp is `0` (JavaScript `0` is falsy). -/
def dueKey (t : Task) : WithTop Nat :=
  match t.dueDate with
  | none => (⊤ : WithTop Nat)
  | some d => if d = 0 then (⊤ : WithTop Nat) else (d : WithTop Nat)

/-- The comparator body: `if (aValue < bValue) return asc ? -1 : 1;
if (aValue > bValue) return asc ? 1 : -1; return 0;`. -/
def cmpVals {β : Type} [LinearOrder β] (dir : SortDirection) (a b : β) : Int :=
  if a < b then (match dir with | SortDirection.asc => -1 | SortDirection.desc => 1)
  else if b < a then (match dir with | SortDirection.asc => 1 | SortDirection.desc => -1)
  else 0

/-- The sort comparator of filteredAndSortedTasks
(src/hooks/useTasks.ts lines 228-271). -/
def taskCmp (spec : TaskSort) (a b : Task) : Int :=
  match spec.sortBy with
  | SortBy.title => cmpVals spec.direction a.title.toLower b.title.toLower
  | SortBy.createdDate => cmpVals spec.direction a.createdAt b.createdAt
  | SortBy.updatedDate => cmpVals spec.direction a.updatedAt b.updatedAt
  | SortBy.dueDate => cmpVals spec.direction (dueKey a) (dueKey b)
  | SortBy.priority => cmpVals spec.direction (priorityOrder a.priority) (priorityOrder b.priority)
  | SortBy.status => cmpVals spec.direction (statusOrder a.status) (statusOrder b.status)

/-- Stable insertion with a JavaScript-style comparator: the inserted element is
the earlier one in input order, so it stays before elements that compare equal. -/
def insertC {α : Type} (c : α → α → Int) (x : α) : List α → List α
  | [] => [x]
  | y :: ys => if c x y ≤ 0 then x :: y :: ys else y :: insertC c x ys

/-- `Array.prototype.sort(comparator)` (stable per the ECMAScript spec),
embedded as a stable insertion sort. -/
def sortC {α : Type} (c : α → α → Int) : List α → List α
  | [] => []
  | x :: xs => insertC c x (sortC c xs)

/-- The sorting stage of filteredAndSortedTasks. -/
def sortTasks (spec : TaskSort) (tasks : List Task) : List Task :=
  sortC (taskCmp spec) tasks

/-- The hook-level statistics (src/hooks/useTasks.ts lines 278-294): overdue
compares the due date against `today` (midnight of the current day), not `now`. -/
def stats (now : Nat) (tasks : List Task) : TaskStats :=
  let today := startOfDay now
  { total := tasks.length
    completed := (tasks.filter (fun t => t.completed)).length
    pending := (tasks.filter (fun t => !t.completed)).length
    overdue := (tasks.filter (fun t =>
      match t.dueDate with
      | some d => decide (d < today) && !t.completed
      | none => false)).length
    highPriority := (tasks.filter (fun t =>
      decide (t.priority = TaskPriority.high) && !t.completed)).length }

end UseTasks

/-! Derived notions used by the specification claims, and concrete fixtures. -/

/-- The comparator obtained from a key function, as every branch of `taskCmp` is. -/
def keyCmp {α β : Type} [LinearOrder β] (κ : α → β) (dir : SortDirection) :
    α → α → Int :=
  fun a b => UseTasks.cmpVals dir (κ a) (κ b)

/-- The ordering a direction sorts keys into: ascending or descending. -/
def keyLe {β : Type} [LinearOrder β] (dir : SortDirection) (a b : β) : Prop :=
  match dir with
  | SortDirection.asc => a ≤ b
  | SortDirection.desc => b ≤ a

/-- The spec invariant: `completed == true` iff `status == "completed"`. -/
def CompletedStatusInv (t : Task) : Prop :=
  t.completed = true ↔ t.status = TaskStatus.completed

/-- An update object that sets `completed` and `status` consistently, or neither. -/
def updatesConsistent (u : TaskUpdates) : Bool :=
  match u.completed, u.status with
  | none, none => true
  | some c, some s => c == decide (s = TaskStatus.completed)
  | _, _ => false

/-- The record produced by one `toggleTask` on a found task. -/
def toggleResult (t : Task) (now : Nat) : Task :=
  { t with
    completed := !t.completed
    status := if !t.completed then TaskStatus.completed else TaskStatus.todo
    updatedAt := now }

/-- The record returned after toggling the same id twice. -/
def toggleTwice (n1 n2 : Nat) (ps : List Project) (tid : String)
    (tasks : List Task) : Option Task :=
  (TaskStorageService.toggleTask n2 ps tid
    (TaskStorageService.toggleTask n1 ps tid tasks).2).1

/-- A plain task used as the base of the concrete fixtures. -/
def baseTask : Task :=
  { id := "t", title := "t", description := none, completed := false,
    status := TaskStatus.todo, priority := TaskPriority.medium,
    projectId := none, dueDate := none, createdAt := 0, updatedAt := 0, tags := [] }

def tLow : Task := { baseTask with id := "l", priority := TaskPriority.low }

def tHigh : Task := { baseTask with id := "h", priority := TaskPriority.high }

def tMed : Task := { baseTask with id := "m", priority := TaskPriority.medium }

def tNone : Task := { baseTask with id := "n", dueDate := none }

def tEpoch : Task := { baseTask with id := "e", dueDate := some 0 }

def tFive : Task := { baseTask with id := "f", dueDate := some 5 }

def tC4 : Task := { baseTask with dueDate := some dayMs }

/-- A default project with id "d". -/
def pDef : Project :=
  { id := "d", name := "Personal", description := none, color := ProjectColor.blue,
    isDefault := true, createdAt := 0, updatedAt := 0 }

/-- A non-default project with id "x2". -/
def pCus : Project :=
  { id := "x2", name := "Work", description := none, color := ProjectColor.green,
    isDefault := false, createdAt := 0, updatedAt := 0 }

def tInD : Task := { baseTask with id := "td", projectId := some "d" }

def tInX : Task := { baseTask with id := "tx", projectId := some "x2" }

def tX7 : Task := { baseTask with id := "u7", projectId := some "d" }

def twC2 : Task := { baseTask with id := "a", title := "A", dueDate := some 3 }

/-- An update that sets only `completed`. -/
def uC1 : TaskUpdates := { completed := some true }

/-- An update whose projectId is the (falsy) empty string. -/
def uEmptyPid : TaskUpdates := { projectId := some (some "") }

/-- An update whose projectId names no existing project. -/
def uZZZ : TaskUpdates := { projectId := some (some "zzz") }

/-- A create input with an empty title. -/
def cinEmpty : CreateTaskInput := { title := "" }

/-- A create input whose projectId names no existing project. -/
def cinBad : CreateTaskInput := { title := "c7", projectId := some "zzz" }

/-- A plain create input. -/
def cinW : CreateTaskInput := { title := "w" }

/-! Helper lemmas about the comparator and the stable sort. -/

theorem cmpVals_eq_zero_iff {β : Type} [LinearOrder β] (dir : SortDirection) (a b : β) :
    UseTasks.cmpVals dir a b = 0 ↔ a = b := by
  unfold UseTasks.cmpVals
  rcases lt_trichotomy a b with h | h | h
  · rw [if_pos h]
    cases dir
    · exact iff_of_false (by decide) (ne_of_lt h)
    · exact iff_of_false (by decide) (ne_of_lt h)
  · subst h
    rw [if_neg (lt_irrefl a), if_neg (lt_irrefl a)]
    exact iff_of_true rfl rfl
  · rw [if_neg (asymm h), if_pos h]
    cases dir
    · exact iff_of_false (by decide) (ne_of_gt h)
    · exact iff_of_false (by decide) (ne_of_gt h)

theorem cmpVals_le_zero_iff {β : Type} [LinearOrder β] (dir : SortDirection) (a b : β) :
    UseTasks.cmpVals dir a b ≤ 0 ↔ keyLe dir a b := by
  unfold UseTasks.cmpVals keyLe
  rcases lt_trichotomy a b with h | h | h
  · rw [if_pos h]
    cases dir
    · exact iff_of_true (by decide) h.le
    · exact iff_of_false (by decide) (not_le.mpr h)
  · subst h
    rw [if_neg (lt_irrefl a), if_neg (lt_irrefl a)]
    cases dir
    · exact iff_of_true (by decide) le_rfl
    · exact iff_of_true (by decide) le_rfl
  · rw [if_neg (asymm h), if_pos h]
    cases dir
    · exact iff_of_false (by decide) (not_le.mpr h)
    · exact iff_of_true (by decide) h.le

theorem cmpVals_desc_neg {β : Type} [LinearOrder β] (a b : β) :
    UseTasks.cmpVals SortDirection.desc a b = - UseTasks.cmpVals SortDirection.asc a b := by
  unfold UseTasks.cmpVals
  rcases lt_trichotomy a b with h | h | h
  · rw [if_pos h, if_pos h]; decide
  · subst h
    rw [if_neg (lt_irrefl a), if_neg (lt_irrefl a), if_neg (lt_irrefl a), if_neg (lt_irrefl a)]
    decide
  · rw [if_neg (asymm h), if_pos h, if_neg (asymm h), if_pos h]

theorem keyLe_trans {β : Type} [LinearOrder β] (dir : SortDirection) {a b c : β} :
    keyLe dir a b → keyLe dir b c → keyLe dir a c := by
  cases dir
  · exact fun h1 h2 => le_trans h1 h2
  · exact fun h1 h2 => le_trans h2 h1

theorem keyLe_total {β : Type} [LinearOrder β] (dir : SortDirection) (a b : β) :
    keyLe dir a b ∨ keyLe dir b a := by
  cases dir
  · exact le_total a b
  · exact le_total b a

theorem insertC_mem {α : Type} {c : α → α → Int} {z a : α} :
    ∀ {l : List α}, a ∈ UseTasks.insertC c z l ↔ a = z ∨ a ∈ l := by
  intro l
  induction l with
  | nil => simp [UseTasks.insertC]
  | cons y ys ih =>
    by_cases h : c z y ≤ 0
    · simp [UseTasks.insertC, h]
    · simp [UseTasks.insertC, h, ih]
      tauto

theorem insertC_filter_keyeq {α β : Type} [LinearOrder β] (κ : α → β) (dir : SortDirection)
    (x z : α) (l : List α) :
    (UseTasks.insertC (keyCmp κ dir) z l).filter (fun y => decide (κ x = κ y)) =
    ((z :: l).filter (fun y => decide (κ x = κ y))) := by
  induction l with
  | nil => rfl
  | cons y ys ih =>
    by_cases hzy : keyCmp κ dir z y ≤ 0
    · simp only [UseTasks.insertC, if_pos hzy]
    · have hzyne : κ z ≠ κ y := by
        intro he
        exact hzy (le_of_eq ((cmpVals_eq_zero_iff dir (κ z) (κ y)).mpr he))
      simp only [UseTasks.insertC, if_neg hzy]
      simp only [List.filter_cons, ih]
      cases hpz : decide (κ x = κ z) <;> cases hpy : decide (κ x = κ y)
      · simp [hpz, hpy]
      · simp [hpz, hpy]
      · simp [hpz, hpy]
      · exact absurd ((of_decide_eq_true hpz).symm.trans (of_decide_eq_true hpy)) hzyne

theorem sortC_filter_keyeq {α β : Type} [LinearOrder β] (κ : α → β) (dir : SortDirection)
    (x : α) : ∀ (l : List α),
    (UseTasks.sortC (keyCmp κ dir) l).filter (fun y => decide (κ x = κ y)) =
    l.filter (fun y => decide (κ x = κ y))
  | [] => rfl
  | z :: zs => by
    rw [UseTasks.sortC, insertC_filter_keyeq κ dir x z]
    rw [List.filter_cons, List.filter_cons, sortC_filter_keyeq κ dir x zs]

theorem sortC_filter_cmp {α β : Type} [LinearOrder β] (κ : α → β) (dir : SortDirection)
    (x : α) (l : List α) :
    (UseTasks.sortC (keyCmp κ dir) l).filter (fun y => decide (keyCmp κ dir x y = 0)) =
    l.filter (fun y => decide (keyCmp κ dir x y = 0)) := by
  have hpred : (fun y => decide (keyCmp κ dir x y = 0)) = (fun y => decide (κ x = κ y)) :=
    funext fun y => decide_eq_decide.mpr (cmpVals_eq_zero_iff dir (κ x) (κ y))
  rw [hpred]
  exact sortC_filter_keyeq κ dir x l

theorem insertC_pairwise_key {α β : Type} [LinearOrder β] (κ : α → β) (dir : SortDirection)
    (z : α) : ∀ {l : List α},
    l.Pairwise (fun a b => keyLe dir (κ a) (κ b)) →
    (UseTasks.insertC (keyCmp κ dir) z l).Pairwise (fun a b => keyLe dir (κ a) (κ b)) := by
  intro l
  induction l with
  | nil =>
    intro _
    simp [UseTasks.insertC]
  | cons y ys ih =>
    intro h
    rcases List.pairwise_cons.mp h with ⟨hy, hys⟩
    by_cases hzy : keyCmp κ dir z y ≤ 0
    · have hzy' : keyLe dir (κ z) (κ y) := (cmpVals_le_zero_iff dir (κ z) (κ y)).mp hzy
      rw [UseTasks.insertC, if_pos hzy]
      refine List.pairwise_cons.mpr ⟨?_, h⟩
      intro b hb
      rcases List.mem_cons.mp hb with rfl | hb'
      · exact hzy'
      · exact keyLe_trans dir hzy' (hy b hb')
    · have hyz : keyLe dir (κ y) (κ z) := by
        rcases keyLe_total dir (κ z) (κ y) with h1 | h1
        · exact absurd ((cmpVals_le_zero_iff dir (κ z) (κ y)).mpr h1) hzy
        · exact h1
      rw [UseTasks.insertC, if_neg hzy]
      refine List.pairwise_cons.mpr ⟨?_, ih hys⟩
      intro b hb
      rcases insertC_mem.mp hb with rfl | hb'
      · exact hyz
      · exact hy b hb'

theorem sortC_pairwise_key {α β : Type} [LinearOrder β] (κ : α → β) (dir : SortDirection) :
    ∀ (l : List α),
    (UseTasks.sortC (keyCmp κ dir) l).Pairwise (fun a b => keyLe dir (κ a) (κ b))
  | [] => List.Pairwise.nil
  | z :: zs => insertC_pairwise_key κ dir z (sortC_pairwise_key κ dir zs)

theorem startOfDay_lt_iff (a b : Nat) :
    startOfDay a < startOfDay b ↔ a / dayMs < b / dayMs := by
  unfold startOfDay
  exact mul_lt_mul_right (by decide)

theorem lt_startOfDay_iff (d t : Nat) :
    d < startOfDay t ↔ d / dayMs < t / dayMs := by
  unfold startOfDay
  exact (Nat.div_lt_iff_lt_mul (by decide)).symm

theorem length_filter_not {α : Type} (p : α → Bool) (l : List α) :
    (l.filter (fun a => !p a)).length = l.length - (l.filter p).length := by
  induction l with
  | nil => rfl
  | cons a l ih =>
    have hle : (l.filter p).length ≤ l.length := List.length_filter_le p l
    cases h : p a
    · simp [List.filter_cons, h, ih]
      omega
    · simp [List.filter_cons, h, ih]

/-- C8: for every task list, sort key and direction the sort is stable (tasks
whose keys compare equal keep their input order), descending flips the sign of
the comparator, and sorting `[low, high, medium]` by priority descending gives
`[high, medium, low]`. -/
theorem C8_sort_stable_flip :
    (∀ (spec : TaskSort) (l : List Task) (x : Task),
      (UseTasks.sortTasks spec l).filter (fun y => decide (UseTasks.taskCmp spec x y = 0)) =
        l.filter (fun y => decide (UseTasks.taskCmp spec x y = 0)))
    ∧ (∀ (sb : SortBy) (a b : Task),
      UseTasks.taskCmp { sortBy := sb, direction := SortDirection.desc } a b =
        - UseTasks.taskCmp { sortBy := sb, direction := SortDirection.asc } a b)
    ∧ UseTasks.sortTasks { sortBy := SortBy.priority, direction := SortDirection.desc }
        [tLow, tHigh, tMed] = [tHigh, tMed, tLow] := by
  refine ⟨?_, ?_, by decide⟩
  · intro spec l x
    obtain ⟨sb, dir⟩ := spec
    cases sb
    · exact sortC_filter_cmp (fun t : Task => t.createdAt) dir x l
    · exact sortC_filter_cmp (fun t : Task => t.updatedAt) dir x l
    · exact sortC_filter_cmp UseTasks.dueKey dir x l
    · exact sortC_filter_cmp (fun t : Task => t.title.toLower) dir x l
    · exact sortC_filter_cmp (fun t : Task => UseTasks.priorityOrder t.priority) dir x l
    · exact sortC_filter_cmp (fun t : Task => UseTasks.statusOrder t.status) dir x l
  · intro sb a b
    cases sb
    · exact cmpVals_desc_neg a.createdAt b.createdAt
    · exact cmpVals_desc_neg a.updatedAt b.updatedAt
    · exact cmpVals_desc_neg (UseTasks.dueKey a) (UseTasks.dueKey b)
    · exact cmpVals_desc_neg a.title.toLower b.title.toLower
    · exact cmpVals_desc_neg (UseTasks.priorityOrder a.priority) (UseTasks.priorityOrder b.priority)
    · exact cmpVals_desc_neg (UseTasks.statusOrder a.status) (UseTasks.statusOrder b.status)

/-- C9 (amended): sorting by dueDate ascending puts every task with no due date
after every task whose due-date timestamp is nonzero. (A due date of exactly 0
is keyed Infinity like an absent one, see C10, so the original claim fails for
it: C9_counterexample.) -/
theorem C9_noDueDate_last_amended : ∀ (l : List Task),
    (UseTasks.sortTasks { sortBy := SortBy.dueDate, direction := SortDirection.asc } l).Pairwise
      (fun a b => a.dueDate ≠ none ∨ b.dueDate = none ∨ b.dueDate = some 0) := by
  intro l
  have h : (UseTasks.sortTasks { sortBy := SortBy.dueDate, direction := SortDirection.asc } l).Pairwise
      (fun a b => keyLe SortDirection.asc (UseTasks.dueKey a) (UseTasks.dueKey b)) :=
    sortC_pairwise_key UseTasks.dueKey SortDirection.asc l
  refine h.imp ?_
  intro a b hab
  rcases ha : a.dueDate with _ | d
  · right
    have htop : UseTasks.dueKey a = (⊤ : WithTop Nat) := by simp [UseTasks.dueKey, ha]
    have hble : (⊤ : WithTop Nat) ≤ UseTasks.dueKey b := by
      have hab' : UseTasks.dueKey a ≤ UseTasks.dueKey b := hab
      rwa [htop] at hab'
    have hbtop : UseTasks.dueKey b = (⊤ : WithTop Nat) := top_le_iff.mp hble
    rcases hb : b.dueDate with _ | e
    · exact Or.inl rfl
    · by_cases he : e = 0
      · exact Or.inr (by rw [he])
      · exfalso
        have hcoe : UseTasks.dueKey b = ((e : Nat) : WithTop Nat) := by
          simp [UseTasks.dueKey, hb, he]
        rw [hcoe] at hbtop
        exact WithTop.coe_ne_top hbtop
  · exact Or.inl (Option.some_ne_none d)

/-- C9 counterexample: with a task whose due date is the epoch (timestamp 0) in
the list, a task with no due date can precede a task that has a due date in the
ascending dueDate order, refuting the claim as stated. -/
theorem C9_counterexample :
    UseTasks.sortTasks { sortBy := SortBy.dueDate, direction := SortDirection.asc }
      [tNone, tEpoch] = [tNone, tEpoch]
    ∧ tNone.dueDate = none ∧ tEpoch.dueDate = some 0 ∧ tNone ≠ tEpoch := by
  exact ⟨by decide, rfl, rfl, by decide⟩

/-- C10: a due date whose timestamp is exactly 0 gets the sort key Infinity,
the same key as an absent due date, and therefore sorts last in ascending
order instead of first among dated tasks. -/
theorem C10_epoch_infinity :
    (∀ t : Task, UseTasks.dueKey { t with dueDate := some 0 } = (⊤ : WithTop Nat))
    ∧ (∀ t : Task, UseTasks.dueKey { t with dueDate := none } = (⊤ : WithTop Nat))
    ∧ (∀ t : Task, UseTasks.dueKey { t with dueDate := some 5 } = ((5 : Nat) : WithTop Nat))
    ∧ UseTasks.sortTasks { sortBy := SortBy.dueDate, direction := SortDirection.asc }
        [tEpoch, tFive] = [tFive, tEpoch] := by
  refine ⟨fun t => rfl, fun t => rfl, fun t => rfl, by decide⟩

/-- C5: in the due-date filter, a task matches the overdue bucket iff it has a
due date on a calendar day strictly before today's and is not completed; a task
with no due date matches only the noDueDate bucket, and the absent/all bucket
passes every task through. -/
theorem C5_dueDate_filter :
    (∀ (now : Nat) (t : Task),
      UseTasks.matchesDueDate DueDateFilter.overdue now t = true ↔
        ∃ d, t.dueDate = some d ∧ d / dayMs < now / dayMs ∧ t.completed = false)
    ∧ (∀ (now : Nat) (fd : DueDateFilter) (t : Task),
      UseTasks.matchesDueDate fd now { t with dueDate := none } =
        decide (fd = DueDateFilter.noDueDate))
    ∧ (∀ (now : Nat) (l : List Task),
      UseTasks.applyDueDateFilter none now l = l
      ∧ UseTasks.applyDueDateFilter (some DueDateFilter.all) now l = l) := by
  refine ⟨?_, ?_, ?_⟩
  · intro now t
    rcases h : t.dueDate with _ | d
    · simp [UseTasks.matchesDueDate, h]
    · simp [UseTasks.matchesDueDate, h, startOfDay_lt_iff]
  · intro now fd t
    rfl
  · intro now l
    exact ⟨rfl, rfl⟩

/-- C4 (amended): both statistics aggregators return total, completed,
pending = total − completed and highPriority as claimed; the storage-level
getTaskStats counts overdue by exact timestamp comparison against now, but the
hook-level stats counts overdue by calendar day (due day strictly before
today), see C4_counterexample. -/
theorem C4_stats_amended :
    (∀ (now : Nat) (l : List Task),
      (TaskStorageService.getTaskStats now l).total = l.length
      ∧ (TaskStorageService.getTaskStats now l).completed = l.countP (fun t => t.completed)
      ∧ (TaskStorageService.getTaskStats now l).pending =
          (TaskStorageService.getTaskStats now l).total -
            (TaskStorageService.getTaskStats now l).completed
      ∧ (TaskStorageService.getTaskStats now l).overdue =
          l.countP (fun t => t.dueDate.any (fun d => decide (d < now)) && !t.completed)
      ∧ (TaskStorageService.getTaskStats now l).highPriority =
          l.countP (fun t => decide (t.priority = TaskPriority.high) && !t.completed))
    ∧ (∀ (now : Nat) (l : List Task),
      (UseTasks.stats now l).total = l.length
      ∧ (UseTasks.stats now l).completed = l.countP (fun t => t.completed)
      ∧ (UseTasks.stats now l).pending =
          (UseTasks.stats now l).total - (UseTasks.stats now l).completed
      ∧ (UseTasks.stats now l).overdue =
          l.countP (fun t => t.dueDate.any (fun d => decide (d / dayMs < now / dayMs)) && !t.completed)
      ∧ (UseTasks.stats now l).highPriority =
          l.countP (fun t => decide (t.priority = TaskPriority.high) && !t.completed)) := by
  constructor
  · intro now l
    refine ⟨rfl, ?_, ?_, ?_, ?_⟩
    · rw [List.countP_eq_length_filter]
      rfl
    · exact length_filter_not (fun t => t.completed) l
    · rw [List.countP_eq_length_filter]
      show (l.filter _).length = (l.filter _).length
      rw [List.filter_congr ?_]
      intro t _
      rcases t.dueDate with _ | d <;> simp [Option.any]
    · rw [List.countP_eq_length_filter]
      rfl
  · intro now l
    refine ⟨rfl, ?_, ?_, ?_, ?_⟩
    · rw [List.countP_eq_length_filter]
      rfl
    · exact length_filter_not (fun t => t.completed) l
    · rw [List.countP_eq_length_filter]
      show (l.filter _).length = (l.filter _).length
      rw [List.filter_congr ?_]
      intro t _
      rcases t.dueDate with _ | d <;> simp [Option.any, lt_startOfDay_iff]
    · rw [List.countP_eq_length_filter]
      rfl

theorem validateUpdates_completed (ps : List Project) (u : TaskUpdates) :
    (TaskStorageService.validateUpdates ps u).completed = u.completed := by
  unfold TaskStorageService.validateUpdates
  split <;> rfl

theorem validateUpdates_status (ps : List Project) (u : TaskUpdates) :
    (TaskStorageService.validateUpdates ps u).status = u.status := by
  unfold TaskStorageService.validateUpdates
  split <;> rfl

theorem mergeUpdates_inv (t : Task) (u : TaskUpdates) (now : Nat)
    (hu : updatesConsistent u = true) (ht : CompletedStatusInv t) :
    CompletedStatusInv (TaskStorageService.mergeUpdates t u now) := by
  unfold CompletedStatusInv TaskStorageService.mergeUpdates
  unfold updatesConsistent at hu
  cases hc : u.completed with
  | none =>
    cases hs : u.status with
    | none => simpa [hc, hs] using ht
    | some s => rw [hc, hs] at hu; exact absurd hu (by simp)
  | some c =>
    cases hs : u.status with
    | none => rw [hc, hs] at hu; exact absurd hu (by simp)
    | some s =>
      rw [hc, hs] at hu
      simp only [beq_iff_eq] at hu
      subst hu
      simp [hc, hs]

theorem updateTask_inv (now : Nat) (ps : List Project) (tid : String) (u : TaskUpdates)
    (hu : updatesConsistent u = true) :
    ∀ (tasks : List Task), (∀ t ∈ tasks, CompletedStatusInv t) →
      ∀ t ∈ (TaskStorageService.updateTask now ps tid u tasks).2, CompletedStatusInv t := by
  intro tasks
  induction tasks with
  | nil =>
    intro _ t ht
    simp [TaskStorageService.updateTask] at ht
  | cons a l ih =>
    intro hall t ht
    have hu' : updatesConsistent (TaskStorageService.validateUpdates ps u) = true := by
      unfold updatesConsistent
      rw [validateUpdates_completed, validateUpdates_status]
      exact hu
    by_cases ha : a.id = tid
    · have hstep : (TaskStorageService.updateTask now ps tid u (a :: l)).2 =
          TaskStorageService.mergeUpdates a (TaskStorageService.validateUpdates ps u) now :: l := by
        simp [TaskStorageService.updateTask, ha]
      rw [hstep] at ht
      rcases List.mem_cons.mp ht with rfl | ht'
      · exact mergeUpdates_inv a (TaskStorageService.validateUpdates ps u) now hu'
          (hall a (List.mem_cons_self a l))
      · exact hall t (List.mem_cons_of_mem a ht')
    · have hstep : (TaskStorageService.updateTask now ps tid u (a :: l)).2 =
          a :: (TaskStorageService.updateTask now ps tid u l).2 := by
        simp [TaskStorageService.updateTask, ha]
      rw [hstep] at ht
      rcases List.mem_cons.mp ht with rfl | ht'
      · exact hall t (List.mem_cons_self t l)
      · exact ih (fun x hx => hall x (List.mem_cons_of_mem a hx)) t ht'

/-- C1 (amended): the invariant `completed = true ↔ status = completed` is
preserved by addTask, toggleTask, deleteTask and clearCompletedTasks, and by
updateTask whenever the update sets `completed` and `status` together
consistently or sets neither; a one-sided updateTask can break it
(C1_counterexample). -/
theorem C1_invariant_amended :
    (∀ (now : Nat) (newId : String) (ps : List Project) (input : CreateTaskInput)
      (tasks : List Task), (∀ t ∈ tasks, CompletedStatusInv t) →
      ∀ t ∈ (TaskStorageService.addTask now newId ps input tasks).2, CompletedStatusInv t)
    ∧ (∀ (now : Nat) (ps : List Project) (tid : String) (u : TaskUpdates)
      (tasks : List Task), updatesConsistent u = true →
      (∀ t ∈ tasks, CompletedStatusInv t) →
      ∀ t ∈ (TaskStorageService.updateTask now ps tid u tasks).2, CompletedStatusInv t)
    ∧ (∀ (now : Nat) (ps : List Project) (tid : String) (tasks : List Task),
      (∀ t ∈ tasks, CompletedStatusInv t) →
      ∀ t ∈ (TaskStorageService.toggleTask now ps tid tasks).2, CompletedStatusInv t)
    ∧ (∀ (tid : String) (tasks : List Task), (∀ t ∈ tasks, CompletedStatusInv t) →
      ∀ t ∈ (TaskStorageService.deleteTask tid tasks).2, CompletedStatusInv t)
    ∧ (∀ (tasks : List Task), (∀ t ∈ tasks, CompletedStatusInv t) →
      ∀ t ∈ (TaskStorageService.clearCompletedTasks tasks).2, CompletedStatusInv t) := by
  refine ⟨?_, ?_, ?_, ?_, ?_⟩
  · intro now newId ps input tasks hall t ht
    simp only [TaskStorageService.addTask] at ht
    rcases List.mem_append.mp ht with ht' | ht'
    · exact hall t ht'
    · rcases List.mem_singleton.mp ht' with rfl
      simp [CompletedStatusInv]
  · intro now ps tid u tasks hu hall
    exact updateTask_inv now ps tid u hu tasks hall
  · intro now ps tid tasks hall t ht
    unfold TaskStorageService.toggleTask at ht
    cases hf : tasks.find? (fun x => decide (x.id = tid)) with
    | none =>
      rw [hf] at ht
      exact hall t ht
    | some task =>
      rw [hf] at ht
      refine updateTask_inv now ps tid _ ?_ tasks hall t ht
      cases task.completed <;> rfl
  · intro tid tasks hall t ht
    unfold TaskStorageService.deleteTask at ht
    simp only [apply_ite Prod.snd] at ht
    split at ht
    · exact hall t ht
    · exact hall t (List.mem_of_mem_filter ht)
  · intro tasks hall t ht
    exact hall t (List.mem_of_mem_filter ht)

/-- C1 counterexample: on a collection satisfying the invariant, updateTask with
an update that sets only `completed` produces a task with `completed = true` and
`status = todo`, violating the claimed invariant. -/
theorem C1_counterexample :
    (TaskStorageService.updateTask 9 [] "t" uC1 [baseTask]).2 =
      [{ baseTask with completed := true, updatedAt := 9 }]
    ∧ CompletedStatusInv baseTask
    ∧ ¬ CompletedStatusInv { baseTask with completed := true, updatedAt := 9 } := by
  refine ⟨by decide, by simp [CompletedStatusInv, baseTask], by simp [CompletedStatusInv, baseTask]⟩

/-- C1 witness: the amended invariant theorem applied at a concrete addTask. -/
theorem C1_witness : CompletedStatusInv ((TaskStorageService.addTask 0 "w" [] cinW []).1) := by
  have h := C1_invariant_amended.1 0 "w" [] cinW [] (by intro t ht; simp at ht)
  exact h ((TaskStorageService.addTask 0 "w" [] cinW []).1) (by decide)

theorem updateTask_cons_hit (now : Nat) (ps : List Project) (tid : String) (u : TaskUpdates)
    (a : Task) (l : List Task) (ha : a.id = tid) :
    TaskStorageService.updateTask now ps tid u (a :: l) =
      (some (TaskStorageService.mergeUpdates a (TaskStorageService.validateUpdates ps u) now),
        TaskStorageService.mergeUpdates a (TaskStorageService.validateUpdates ps u) now :: l) := by
  simp [TaskStorageService.updateTask, ha]

theorem updateTask_cons_miss (now : Nat) (ps : List Project) (tid : String) (u : TaskUpdates)
    (a : Task) (l : List Task) (ha : ¬ a.id = tid) :
    TaskStorageService.updateTask now ps tid u (a :: l) =
      ((TaskStorageService.updateTask now ps tid u l).1,
        a :: (TaskStorageService.updateTask now ps tid u l).2) := by
  simp [TaskStorageService.updateTask, ha]

theorem updateTask_found (now : Nat) (ps : List Project) (tid : String) (u : TaskUpdates) :
    ∀ (tasks : List Task) (t : Task),
      tasks.find? (fun x => decide (x.id = tid)) = some t →
      (TaskStorageService.updateTask now ps tid u tasks).1 =
        some (TaskStorageService.mergeUpdates t (TaskStorageService.validateUpdates ps u) now)
      ∧ (TaskStorageService.updateTask now ps tid u tasks).2.find? (fun x => decide (x.id = tid)) =
        some (TaskStorageService.mergeUpdates t (TaskStorageService.validateUpdates ps u) now) := by
  intro tasks
  induction tasks with
  | nil => intro t ht; simp at ht
  | cons a l ih =>
    intro t ht
    by_cases ha : a.id = tid
    · obtain rfl : a = t := by simpa [List.find?_cons, ha] using ht
      rw [updateTask_cons_hit now ps tid u a l ha]
      refine ⟨rfl, ?_⟩
      have hid : (TaskStorageService.mergeUpdates a (TaskStorageService.validateUpdates ps u) now).id
          = a.id := rfl
      simp [List.find?_cons, hid, ha]
    · have htl : l.find? (fun x => decide (x.id = tid)) = some t := by
        simpa [List.find?_cons, ha] using ht
      rw [updateTask_cons_miss now ps tid u a l ha]
      refine ⟨(ih t htl).1, ?_⟩
      simpa [List.find?_cons, ha] using (ih t htl).2

theorem toggleTask_found_eq (now : Nat) (ps : List Project) (tid : String)
    (tasks : List Task) (t : Task)
    (ht : tasks.find? (fun x => decide (x.id = tid)) = some t) :
    TaskStorageService.toggleTask now ps tid tasks =
      TaskStorageService.updateTask now ps tid
        (TaskStorageService.toggleUpdates (!t.completed)) tasks := by
  unfold TaskStorageService.toggleTask
  rw [ht]

theorem mergeUpdates_toggle (t : Task) (ps : List Project) (now : Nat) :
    TaskStorageService.mergeUpdates t
      (TaskStorageService.validateUpdates ps (TaskStorageService.toggleUpdates (!t.completed)))
      now = toggleResult t now := rfl

theorem toggle_found (now : Nat) (ps : List Project) (tid : String)
    (tasks : List Task) (t : Task)
    (ht : tasks.find? (fun x => decide (x.id = tid)) = some t) :
    (TaskStorageService.toggleTask now ps tid tasks).1 = some (toggleResult t now)
    ∧ (TaskStorageService.toggleTask now ps tid tasks).2.find? (fun x => decide (x.id = tid)) =
        some (toggleResult t now) := by
  rw [toggleTask_found_eq now ps tid tasks t ht]
  have h := updateTask_found now ps tid (TaskStorageService.toggleUpdates (!t.completed)) tasks t ht
  rw [mergeUpdates_toggle t ps now] at h
  exact h

/-- C2 (amended): toggling a task twice restores every field except updatedAt
and status; status is restored to `completed ? "completed" : "todo"`, which
differs from the original when the task was `in_progress` (C2_counterexample). -/
theorem C2_toggle_roundtrip_amended :
    ∀ (ps : List Project) (n1 n2 : Nat) (tid : String) (tasks : List Task) (t : Task),
      tasks.find? (fun x => decide (x.id = tid)) = some t →
      (toggleTwice n1 n2 ps tid tasks).map Task.id = some t.id
      ∧ (toggleTwice n1 n2 ps tid tasks).map Task.title = some t.title
      ∧ (toggleTwice n1 n2 ps tid tasks).map Task.description = some t.description
      ∧ (toggleTwice n1 n2 ps tid tasks).map Task.completed = some t.completed
      ∧ (toggleTwice n1 n2 ps tid tasks).map Task.priority = some t.priority
      ∧ (toggleTwice n1 n2 ps tid tasks).map Task.projectId = some t.projectId
      ∧ (toggleTwice n1 n2 ps tid tasks).map Task.dueDate = some t.dueDate
      ∧ (toggleTwice n1 n2 ps tid tasks).map Task.tags = some t.tags
      ∧ (toggleTwice n1 n2 ps tid tasks).map Task.createdAt = some t.createdAt
      ∧ (toggleTwice n1 n2 ps tid tasks).map Task.status =
          some (if t.completed then TaskStatus.completed else TaskStatus.todo)
      ∧ (toggleTwice n1 n2 ps tid tasks).map Task.updatedAt = some n2 := by
  intro ps n1 n2 tid tasks t ht
  have h1 := toggle_found n1 ps tid tasks t ht
  have h2 : toggleTwice n1 n2 ps tid tasks = some (toggleResult (toggleResult t n1) n2) := by
    unfold toggleTwice
    exact (toggle_found n2 ps tid (TaskStorageService.toggleTask n1 ps tid tasks).2
      (toggleResult t n1) h1.2).1
  rw [h2]
  simp [toggleResult, Bool.not_not]

/-- C2 counterexample: a task whose status is `in_progress` comes back with
status `todo` after two toggles, so not every field other than updatedAt is
restored. -/
theorem C2_counterexample :
    (TaskStorageService.toggleTask 2 [] "t"
        (TaskStorageService.toggleTask 1 [] "t"
          [{ baseTask with status := TaskStatus.in_progress }]).2).1.map Task.status =
      some TaskStatus.todo
    ∧ ({ baseTask with status := TaskStatus.in_progress } : Task).status = TaskStatus.in_progress
    ∧ TaskStatus.todo ≠ TaskStatus.in_progress := by
  exact ⟨by decide, rfl, by decide⟩

/-- C2 witness: the amended round-trip theorem applied to a concrete task. -/
theorem C2_witness :
    (toggleTwice 1 2 [] "a" [twC2]).map Task.id = some twC2.id
    ∧ (toggleTwice 1 2 [] "a" [twC2]).map Task.title = some twC2.title
    ∧ (toggleTwice 1 2 [] "a" [twC2]).map Task.description = some twC2.description
    ∧ (toggleTwice 1 2 [] "a" [twC2]).map Task.completed = some twC2.completed
    ∧ (toggleTwice 1 2 [] "a" [twC2]).map Task.priority = some twC2.priority
    ∧ (toggleTwice 1 2 [] "a" [twC2]).map Task.projectId = some twC2.projectId
    ∧ (toggleTwice 1 2 [] "a" [twC2]).map Task.dueDate = some twC2.dueDate
    ∧ (toggleTwice 1 2 [] "a" [twC2]).map Task.tags = some twC2.tags
    ∧ (toggleTwice 1 2 [] "a" [twC2]).map Task.createdAt = some twC2.createdAt
    ∧ (toggleTwice 1 2 [] "a" [twC2]).map Task.status =
        some (if twC2.completed then TaskStatus.completed else TaskStatus.todo)
    ∧ (toggleTwice 1 2 [] "a" [twC2]).map Task.updatedAt = some 2 :=
  C2_toggle_roundtrip_amended [] 1 2 "a" [twC2] twC2 (by decide)

theorem handleProjectDeletion_default (now : Nat) (ps : List Project) (pid : String)
    (tasks : List Task) (dp : Project)
    (hdp : ProjectStorageService.getDefaultProject ps = some dp) :
    TaskStorageService.handleProjectDeletion now ps pid tasks =
      (true, tasks.map (fun t =>
        if decide (t.projectId = some pid) then
          { t with projectId := some dp.id, updatedAt := now }
        else t)) := by
  unfold TaskStorageService.handleProjectDeletion
  rw [hdp]
  by_cases hmv : (tasks.filter (fun t => decide (t.projectId = some pid))).isEmpty
  · simp only [hmv, if_pos]
    have hnone : ∀ t ∈ tasks, ¬ (decide (t.projectId = some pid) = true) :=
      List.filter_eq_nil_iff.mp (List.isEmpty_iff.mp hmv)
    have hmap : tasks.map (fun t =>
        if decide (t.projectId = some pid) then
          { t with projectId := some dp.id, updatedAt := now }
        else t) = tasks := by
      conv_rhs => rw [← List.map_id tasks]
      refine List.map_congr_left ?_
      intro a ha
      rw [if_neg (hnone a ha)]
      rfl
    rw [hmap]
  · simp only [hmv, if_neg]
    simp

/-- C3 (amended): at the hook level, deleting the default project fails and
leaves the project collection unchanged, but the reassignment step has already
refreshed updatedAt on every task assigned to the default project
(C3_counterexample shows this is not a task-collection no-op); deleting an
existing non-default project reassigns its tasks to the default project and
removes the project record, leaving no task referencing a missing project. -/
theorem C3_deleteProject_amended :
    (∀ (now : Nat) (ps : List Project) (tasks : List Task) (dp : Project),
      ProjectStorageService.getDefaultProject ps = some dp →
      ps.find? (fun q => decide (q.id = dp.id)) = some dp →
      UseProjects.deleteProject now ps dp.id tasks =
        (false, ps, tasks.map (fun t =>
          if decide (t.projectId = some dp.id) then
            { t with projectId := some dp.id, updatedAt := now }
          else t)))
    ∧ (∀ (now : Nat) (ps : List Project) (pid : String) (tasks : List Task) (p dp : Project),
      ps.find? (fun q => decide (q.id = pid)) = some p →
      p.isDefault = false →
      ProjectStorageService.getDefaultProject ps = some dp →
      dp.id ≠ pid →
      (UseProjects.deleteProject now ps pid tasks =
        (true, ps.filter (fun q => decide (q.id ≠ pid)), tasks.map (fun t =>
          if decide (t.projectId = some pid) then
            { t with projectId := some dp.id, updatedAt := now }
          else t))
      ∧ (∀ t' ∈ (UseProjects.deleteProject now ps pid tasks).2.2, t'.projectId ≠ some pid)
      ∧ ((∀ t ∈ tasks, ∀ q, t.projectId = some q →
            ps.any (fun r => decide (r.id = q)) = true) →
          ∀ t' ∈ (UseProjects.deleteProject now ps pid tasks).2.2, ∀ q,
            t'.projectId = some q →
            ((UseProjects.deleteProject now ps pid tasks).2.1).any
              (fun r => decide (r.id = q)) = true))) := by
  constructor
  · intro now ps tasks dp hdp hfind
    have hdef : dp.isDefault = true := List.find?_some hdp
    have hh := handleProjectDeletion_default now ps dp.id tasks dp hdp
    have hpd : ProjectStorageService.deleteProject dp.id ps = (false, ps) := by
      unfold ProjectStorageService.deleteProject
      rw [hfind]
      simp [hdef]
    simp [UseProjects.deleteProject, hh, hpd]
  · intro now ps pid tasks p dp hfind hnd hdp hne
    have hh := handleProjectDeletion_default now ps pid tasks dp hdp
    have hpd : ProjectStorageService.deleteProject pid ps =
        (true, ps.filter (fun q => decide (q.id ≠ pid))) := by
      unfold ProjectStorageService.deleteProject
      rw [hfind]
      simp [hnd]
    have hres : UseProjects.deleteProject now ps pid tasks =
        (true, ps.filter (fun q => decide (q.id ≠ pid)), tasks.map (fun t =>
          if decide (t.projectId = some pid) then
            { t with projectId := some dp.id, updatedAt := now }
          else t)) := by
      simp [UseProjects.deleteProject, hh, hpd]
    refine ⟨hres, ?_, ?_⟩
    · intro t' ht'
      rw [hres] at ht'
      rcases List.mem_map.mp ht' with ⟨t, _, hft⟩
      by_cases hp : t.projectId = some pid
      · rw [if_pos (decide_eq_true hp)] at hft
        rw [← hft]
        simp [hne]
      · rw [if_neg (by simpa using hp)] at hft
        rw [← hft]
        exact hp
    · intro href t' ht' q hq
      rw [hres] at ht' ⊢
      rcases List.mem_map.mp ht' with ⟨t, htm, hft⟩
      have hdpmem : dp ∈ ps := List.mem_of_find?_eq_some hdp
      by_cases hp : t.projectId = some pid
      · rw [if_pos (decide_eq_true hp)] at hft
        have hq' : q = dp.id := by
          rw [← hft] at hq
          simpa using hq.symm
        subst hq'
        rw [List.any_eq_true]
        refine ⟨dp, ?_, by simp⟩
        exact List.mem_filter.mpr ⟨hdpmem, by simp [hne]⟩
      · rw [if_neg (by simpa using hp)] at hft
        rw [← hft] at hq
        have hqpid : q ≠ pid := by
          intro hqe
          exact hp (by rw [hq, hqe])
        have hany := href t htm q hq
        rcases List.any_eq_true.mp hany with ⟨r, hrm, hrq⟩
        rw [List.any_eq_true]
        refine ⟨r, ?_, hrq⟩
        refine List.mem_filter.mpr ⟨hrm, ?_⟩
        have hrid : r.id = q := of_decide_eq_true hrq
        simp [hrid, hqpid]

/-- C3 counterexample: hook-level deleteProject on the default project returns
failure and keeps the projects, but refreshes updatedAt of the task assigned to
the default project, so the task collection is not left unchanged. -/
theorem C3_counterexample :
    UseProjects.deleteProject 5 [pDef] "d" [tInD] =
      (false, [pDef], [{ tInD with projectId := some "d", updatedAt := 5 }])
    ∧ ({ tInD with projectId := some "d", updatedAt := 5 } : Task) ≠ tInD := by
  exact ⟨by decide, by decide⟩

/-- C3 witness: the amended theorem applied at concrete stores, for the default
refusal and for a non-default deletion. -/
theorem C3_witness :
    UseProjects.deleteProject 5 [pDef] "d" [] = (false, [pDef], [])
    ∧ UseProjects.deleteProject 3 [pDef, pCus] "x2" [tInX] =
        (true, [pDef], [{ tInX with projectId := some "d", updatedAt := 3 }]) := by
  constructor
  · exact C3_deleteProject_amended.1 5 [pDef] [] pDef (by decide) (by decide)
  · exact (C3_deleteProject_amended.2 3 [pDef, pCus] "x2" [tInX] pCus pDef
      (by decide) (by decide) (by decide) (by decide)).1

/-- C6: both addTask definitions accept an empty title: the task is appended
and returned with `title = ""`, and no failure is reported. This contradicts
the claim (and the spec's stated intent) that an empty title is rejected. -/
theorem C6_empty_title_accepted :
    ((TaskStorageService.addTask 0 "id1" [] cinEmpty []).2).length = 1
    ∧ ((TaskStorageService.addTask 0 "id1" [] cinEmpty []).1).title = ""
    ∧ ((TaskStorageService.addTaskDup 0 "id1" cinEmpty []).2).length = 1
    ∧ ((TaskStorageService.addTaskDup 0 "id1" cinEmpty []).1).title = "" := by
  exact ⟨by decide, rfl, by decide, rfl⟩

theorem projectExists_of_getDefaultProject (ps : List Project) (dp : Project)
    (hdp : ProjectStorageService.getDefaultProject ps = some dp) :
    ProjectStorageService.projectExists ps dp.id = true := by
  unfold ProjectStorageService.projectExists
  rw [List.any_eq_true]
  exact ⟨dp, List.mem_of_find?_eq_some hdp, by simp⟩

/-- C7 (amended): addTask falls back to the default project's id whenever the
input projectId is absent or names no existing project; updateTask does the
same only for a non-empty invalid projectId — an update carrying the (falsy)
empty string bypasses the validation and is stored verbatim
(C7_counterexample). Both parts assume the default project exists. -/
theorem C7_projectId_validation_amended :
    (∀ (now : Nat) (newId : String) (ps : List Project) (input : CreateTaskInput)
      (tasks : List Task) (dp : Project),
      ProjectStorageService.getDefaultProject ps = some dp →
      (input.projectId = none
        ∨ ∃ pid, input.projectId = some pid
            ∧ ProjectStorageService.projectExists ps pid = false) →
      ((TaskStorageService.addTask now newId ps input tasks).1).projectId = some dp.id)
    ∧ (∀ (now : Nat) (ps : List Project) (tid : String) (u : TaskUpdates)
      (tasks : List Task) (t : Task) (dp : Project) (pid : String),
      ProjectStorageService.getDefaultProject ps = some dp →
      u.projectId = some (some pid) →
      pid ≠ "" →
      ProjectStorageService.projectExists ps pid = false →
      tasks.find? (fun x => decide (x.id = tid)) = some t →
      ((TaskStorageService.updateTask now ps tid u tasks).1).map Task.projectId =
        some (some dp.id)) := by
  constructor
  · intro now newId ps input tasks dp hdp hin
    have hex := projectExists_of_getDefaultProject ps dp hdp
    rcases hin with hnone | ⟨pid, hpid, hnex⟩
    · simp [TaskStorageService.addTask, hnone, strTruthy, hdp, hex]
    · by_cases hpe : pid = ""
      · subst hpe
        simp [TaskStorageService.addTask, hpid, strTruthy, hdp, hex]
      · simp [TaskStorageService.addTask, hpid, strTruthy, hpe, hnex, hdp]
  · intro now ps tid u tasks t dp pid hdp hupid hpe hnex ht
    have hval : TaskStorageService.validateUpdates ps u =
        { u with projectId := some (some dp.id) } := by
      unfold TaskStorageService.validateUpdates
      rw [hupid]
      simp [optStrTruthy, optStrGet, hpe, hnex, hdp]
    have h := (updateTask_found now ps tid u tasks t ht).1
    rw [h, hval]
    simp [TaskStorageService.mergeUpdates]

/-- C7 counterexample: updateTask with a projectId equal to the empty string —
which names no existing project — stores the empty string instead of replacing
it with the default project's id. -/
theorem C7_counterexample :
    ((TaskStorageService.updateTask 7 [pDef] "u7" uEmptyPid [tX7]).1).map Task.projectId =
      some (some "")
    ∧ ProjectStorageService.projectExists [pDef] "" = false
    ∧ (some "" : Option String) ≠ some pDef.id := by
  exact ⟨by decide, by decide, by decide⟩

/-- C7 witness: the amended validation theorem applied at concrete inputs for
both addTask and updateTask. -/
theorem C7_witness :
    ((TaskStorageService.addTask 0 "n1" [pDef] cinBad []).1).projectId = some "d"
    ∧ ((TaskStorageService.updateTask 7 [pDef] "u7" uZZZ [tX7]).1).map Task.projectId =
        some (some "d") := by
  constructor
  · exact C7_projectId_validation_amended.1 0 "n1" [pDef] cinBad [] pDef (by decide)
      (Or.inr ⟨"zzz", rfl, by decide⟩)
  · exact C7_projectId_validation_amended.2 7 [pDef] "u7" uZZZ [tX7] tX7 pDef "zzz"
      (by decide) rfl (by decide) (by decide) (by decide)

/-- C4 counterexample: a task due earlier today (exact timestamp before now but
on today's calendar day) is counted overdue by the claim's exact-timestamp rule
but not by the hook-level aggregator. -/
theorem C4_counterexample :
    (UseTasks.stats (dayMs + 1) [tC4]).overdue = 0
    ∧ [tC4].countP (fun t => t.dueDate.any (fun d => decide (d < dayMs + 1)) && !t.completed) = 1
    ∧ (UseTasks.stats (dayMs + 1) [tC4]).overdue ≠
        [tC4].countP (fun t => t.dueDate.any (fun d => decide (d < dayMs + 1)) && !t.completed) := by
  exact ⟨by decide, by decide, by decide⟩

end Todo
